import Mathlib

/-!
Verification development for the `wl` Wayland server runtime.

This file embeds the wire codec (`wl_common/src/wire.rs`), the framed
transport (`wl_server/src/net.rs`) and the object/dispatch/server-loop
machinery (`wl_server/src/{object,resource,client,server}.rs`) as
executable Lean definitions, and proves or refutes the specified
properties about them.

Modelling conventions:
* Machine integers are `Nat`/`Int`; a byte is a `Nat`, well-formed when
  `< 256`.  The host is little-endian, so native-endian fields are
  modelled little-endian.
* Fallible Rust code returns `Except`; a Rust `panic` (slice index out
  of bounds, `unwrap` on `None`/`Err`) is modelled by an explicit
  `panicked` outcome so that refutations can distinguish it from a
  recoverable error.
* `RefCell`/`Cell` mutation becomes explicit state passing.
-/

namespace Wl

/-- Source `wire.rs` `ArgumentType`. -/
inductive ArgumentType
  | int
  | uint
  | fixed
  | string
  | object
  | newId
  | array
  | fd
deriving DecidableEq, Repr

/-- Source `wire.rs` `ArgumentDesc`: one entry of an argument schema. -/
structure ArgumentDesc where
  arg_type : ArgumentType
  interface : Option String
  allow_null : Bool
deriving DecidableEq, Repr

/-- Source `interface.rs` `InterfaceTitle`.  The Rust `String` is modelled by its
byte contents (the parser stores the raw bytes of the name, including the
trailing NUL byte that is part of the wire string). -/
structure InterfaceTitle where
  name : List Nat
  version : Nat
deriving DecidableEq, Repr

/-- Source `wire.rs` `DynArgument`. -/
inductive DynArgument
  | int (v : Int)
  | uint (v : Nat)
  | fixed (v : Nat)
  | string (v : Option (List Nat))
  | object (v : Option Nat)
  | newId (v : Nat) (interface : Option InterfaceTitle)
  | array (v : List Nat)
  | fd (v : Int)
deriving DecidableEq, Repr

/-- Source `wire.rs` `ParseRawError`, extended with `panicked` modelling the
`unwrap` calls inside `next_new_id_anonymous` (which panic when the
interface-name string is null). -/
inductive ParseRawError
  | ioError
  | insufficientFds
  | panicked
deriving DecidableEq, Repr

/-- Source `wire.rs` `RawMessageReader`: a cursor over the payload bytes plus the
out-of-band fd queue.  `data` is the not-yet-consumed payload suffix. -/
structure Reader where
  data : List Nat
  fds : List Int
  nextFd : Nat
deriving DecidableEq, Repr

/-- Little-endian value of a byte list (`byteorder::NativeEndian` reads on a
little-endian host). -/
def leNat : List Nat → Nat
  | [] => 0
  | b :: rest => b + 256 * leNat rest

/-- Consume `n` bytes from the cursor; `Cursor::read_*` fails with an io
error when the data runs out. -/
def readBytes (n : Nat) (r : Reader) : Except ParseRawError (List Nat × Reader) :=
  if n ≤ r.data.length then
    .ok (r.data.take n, { r with data := r.data.drop n })
  else
    .error .ioError

/-- Source `RawMessageReader::next_uint`. -/
def Reader.next_uint (r : Reader) : Except ParseRawError (Nat × Reader) := do
  let (bs, r2) ← readBytes 4 r
  .ok (leNat bs, r2)

/-- Interpret a `u32` value as an `i32` (two's complement). -/
def toI32 (n : Nat) : Int :=
  if n < 2 ^ 31 then (n : Int) else (n : Int) - 2 ^ 32

/-- Source `RawMessageReader::next_int`. -/
def Reader.next_int (r : Reader) : Except ParseRawError (Int × Reader) := do
  let (n, r2) ← r.next_uint
  .ok (toI32 n, r2)

/-- Source `RawMessageReader::next_fixed` (the codec preserves the raw `u32`). -/
def Reader.next_fixed (r : Reader) : Except ParseRawError (Nat × Reader) :=
  r.next_uint

/-- Source `RawMessageReader::next_array`, instrumented: besides the array value it
also returns the padding bytes that the source reads and discards (the
source reads `(4 - len % 4) % 4` bytes after the contents and ignores
their values). -/
def Reader.next_array_pad (r : Reader) :
    Except ParseRawError ((List Nat × List Nat) × Reader) := do
  let (len, r1) ← r.next_uint
  let (v, r2) ← readBytes len r1
  let (pad, r3) ← readBytes ((4 - len % 4) % 4) r2
  .ok ((v, pad), r3)

/-- Source `RawMessageReader::next_string`, instrumented with the padding bytes.
An empty array means a null string. -/
def Reader.next_string_pad (r : Reader) :
    Except ParseRawError ((Option (List Nat) × List Nat) × Reader) := do
  let ((v, pad), r2) ← r.next_array_pad
  if v.isEmpty then .ok ((none, pad), r2) else .ok ((some v, pad), r2)

/-- Source `RawMessageReader::next_object`: id 0 means null. -/
def Reader.next_object (r : Reader) : Except ParseRawError (Option Nat × Reader) := do
  let (id, r2) ← r.next_uint
  if id = 0 then .ok (none, r2) else .ok (some id, r2)

/-- Source `RawMessageReader::next_new_id`. -/
def Reader.next_new_id (r : Reader) : Except ParseRawError (Nat × Reader) :=
  r.next_uint

/-- Source `RawMessageReader::next_new_id_anonymous`, instrumented with padding.
The source calls `.unwrap()` on the string option, which panics when the
string is null. -/
def Reader.next_new_id_anonymous_pad (r : Reader) :
    Except ParseRawError (((Nat × InterfaceTitle) × List Nat) × Reader) := do
  let ((s, pad), r1) ← r.next_string_pad
  match s with
  | none => .error .panicked
  | some name =>
    let (version, r2) ← r1.next_uint
    let (id, r3) ← r2.next_new_id
    .ok (((id, ⟨name, version⟩), pad), r3)

/-- Source `RawMessageReader::next_fd`: pops the next fd from the ancillary queue. -/
def Reader.next_fd (r : Reader) : Except ParseRawError (Int × Reader) :=
  if h : r.nextFd < r.fds.length then
    .ok (r.fds.get ⟨r.nextFd, h⟩, { r with nextFd := r.nextFd + 1 })
  else
    .error .insufficientFds

/-- One iteration of the loop body of `DynMessage::parse_dyn_args`,
instrumented with the padding bytes the reader skipped. -/
def parseOneArg (d : ArgumentDesc) (r : Reader) :
    Except ParseRawError ((DynArgument × List Nat) × Reader) :=
  match d.arg_type with
  | .int => do
    let (v, r2) ← r.next_int
    .ok ((.int v, []), r2)
  | .uint => do
    let (v, r2) ← r.next_uint
    .ok ((.uint v, []), r2)
  | .fixed => do
    let (v, r2) ← r.next_fixed
    .ok ((.fixed v, []), r2)
  | .string => do
    let ((v, pad), r2) ← r.next_string_pad
    .ok ((.string v, pad), r2)
  | .object => do
    let (v, r2) ← r.next_object
    .ok ((.object v, []), r2)
  | .newId =>
    if d.interface.isSome then do
      let (id, r2) ← r.next_new_id
      .ok ((.newId id none, []), r2)
    else do
      let (((id, title), pad), r2) ← r.next_new_id_anonymous_pad
      .ok ((.newId id (some title), pad), r2)
  | .array => do
    let ((v, pad), r2) ← r.next_array_pad
    .ok ((.array v, pad), r2)
  | .fd => do
    let (v, r2) ← r.next_fd
    .ok ((.fd v, []), r2)

/-- Source `DynMessage::parse_dyn_args`, instrumented: also returns the final
cursor and the concatenation of all padding bytes the reader skipped. -/
def parse_dyn_args_pad (desc : List ArgumentDesc) (r : Reader) :
    Except ParseRawError ((List DynArgument × List Nat) × Reader) :=
  match desc with
  | [] => .ok (([], []), r)
  | d :: rest => do
    let ((a, pad1), r1) ← parseOneArg d r
    let ((as_, pad2), r2) ← parse_dyn_args_pad rest r1
    .ok ((a :: as_, pad1 ++ pad2), r2)

/-- Source `DynMessage::parse_dyn_args`: the source function (padding bytes are
read and discarded). -/
def parse_dyn_args (desc : List ArgumentDesc) (r : Reader) :
    Except ParseRawError (List DynArgument × Reader) :=
  match parse_dyn_args_pad desc r with
  | .ok ((args, _), r2) => .ok (args, r2)
  | .error e => .error e

/-- Source `wire.rs` `SerializeRawError`, extended with `panicked` modelling the
`CString::new(..).unwrap()` in the anonymous-new-id branch of the writer
(it panics when the stored interface name contains a NUL byte, which is
always the case for a title produced by the parser). -/
inductive SerializeRawError
  | arrayTooLong
  | messageTooLong
  | panicked
deriving DecidableEq, Repr

/-- Little-endian bytes of a `u32` (`write_u32::<NativeEndian>`). -/
def writeU32 (n : Nat) : List Nat :=
  [n % 256, n / 256 % 256, n / 256 ^ 2 % 256, n / 256 ^ 3 % 256]

/-- Little-endian bytes of an `i32` (`write_i32::<NativeEndian>`). -/
def writeI32 (v : Int) : List Nat :=
  writeU32 ((v % (2 ^ 32 : Int)).toNat)

/-- The padding the writer appends after a `len`-byte field: always zero
bytes (`buf.push(0u8)`). -/
def padBytes (len : Nat) : List Nat :=
  List.replicate ((4 - len % 4) % 4) 0

/-- Source `write_array` inside `DynMessage::serialize_raw_args`: length prefix,
contents, zero padding; fails with `ArrayTooLong` when the length exceeds
`u32`. -/
def write_array (v : List Nat) : Except SerializeRawError (List Nat) :=
  if v.length < 2 ^ 32 then
    .ok (writeU32 v.length ++ v ++ padBytes v.length)
  else
    .error .arrayTooLong

/-- One iteration of the loop body of `DynMessage::serialize_raw_args`:
the payload bytes and fds this argument contributes.  Note the source
bug kept faithfully here: for a `new_id` carrying an interface title it
writes the name string and the id but never the version. -/
def serializeOneArg (a : DynArgument) : Except SerializeRawError (List Nat × List Int) :=
  match a with
  | .int v => .ok (writeI32 v, [])
  | .uint v => .ok (writeU32 v, [])
  | .fixed v => .ok (writeU32 v, [])
  | .string (some v) => do
    let bs ← write_array v
    .ok (bs, [])
  | .string none => .ok (writeU32 0, [])
  | .object (some v) => .ok (writeU32 v, [])
  | .object none => .ok (writeU32 0, [])
  | .newId v none => .ok (writeU32 v, [])
  | .newId v (some title) =>
    -- CString::new panics on interior NUL; otherwise as_bytes_with_nul
    -- appends a trailing NUL to the name.
    if 0 ∈ title.name then .error .panicked
    else do
      let bs ← write_array (title.name ++ [0])
      .ok (bs ++ writeU32 v, [])
  | .array v => do
    let bs ← write_array v
    .ok (bs, [])
  | .fd v => .ok ([], [v])

/-- Source `DynMessage::serialize_raw_args`: payload bytes and fd vector. -/
def serialize_raw_args (args : List DynArgument) :
    Except SerializeRawError (List Nat × List Int) :=
  match args with
  | [] => .ok ([], [])
  | a :: rest => do
    let (bs, fs) ← serializeOneArg a
    let (bs2, fs2) ← serialize_raw_args rest
    .ok (bs ++ bs2, fs ++ fs2)

instance {ε α : Type} [DecidableEq ε] [DecidableEq α] : DecidableEq (Except ε α) := fun a b =>
  match a, b with
  | .ok x, .ok y => if h : x = y then isTrue (by simp [h]) else isFalse (by simp [h])
  | .error x, .error y => if h : x = y then isTrue (by simp [h]) else isFalse (by simp [h])
  | .ok _, .error _ => isFalse (by simp)
  | .error _, .ok _ => isFalse (by simp)

/-! ### Interfaces and the object model (`wl_server/src/object.rs`,
`wl_server/src/resource.rs`, `wl_server/src/client.rs`)

The `loaner` crate identities (`Owner`/`Handle`) are modelled by unique
`Nat` keys allocated from the `nextKey` counter of the server state; a
dead handle is a key that no table contains.  The type-erased
`Box<dyn Any>` user-data box is modelled by `DataBox`, which records
whether the box holds a bare value (`plain`) or an `Owner`-wrapped value
(`owner`), together with a `Nat` tag standing for the `TypeId` of the
payload.  Handler closures are modelled by the closed `ImplKind`
enumeration of the implementations this development needs; their
semantics is given by `Server.run_handler` and faithfully mirrors the
cited source handlers. -/

/-- Source `interface.rs` `DynInterface`. -/
structure DynInterface where
  name : String
  version : Nat
  requests : List (List ArgumentDesc)
  events : List (List ArgumentDesc)
deriving DecidableEq, Repr

/-- Source `interface.rs` `DynInterface::new_anonymous`. -/
def DynInterface.new_anonymous : DynInterface :=
  ⟨"anonymous", 0, [], []⟩

/-- The `wl_display` interface exactly as hardcoded in
`wl_common/src/resource.rs` (`Client::new`): requests `sync(new_id
wl_callback)` and `get_registry(new_id wl_registry)`; events
`error(object, uint, string)` (opcode 0) and `delete_id(uint)`
(opcode 1). -/
def wlDisplayIface : DynInterface :=
  { name := "wl_display"
    version := 1
    requests := [[⟨.newId, some "wl_callback", false⟩],
                 [⟨.newId, some "wl_registry", false⟩]]
    events := [[⟨.object, none, false⟩, ⟨.uint, none, false⟩, ⟨.string, none, false⟩],
               [⟨.uint, none, false⟩]] }

/-- The `wl_callback` interface: no requests; event `done(uint)`
(opcode 0). -/
def wlCallbackIface : DynInterface :=
  { name := "wl_callback", version := 1, requests := [],
    events := [[⟨.uint, none, false⟩]] }

/-- The `wl_registry` interface: request `bind(name: uint, id: new_id)`
(dynamic interface); events `global(uint, string, uint)` and
`global_remove(uint)`. -/
def wlRegistryIface : DynInterface :=
  { name := "wl_registry"
    version := 1
    requests := [[⟨.uint, none, false⟩, ⟨.newId, none, false⟩]]
    events := [[⟨.uint, none, false⟩, ⟨.string, none, false⟩, ⟨.uint, none, false⟩],
               [⟨.uint, none, false⟩]] }

/-- A minimal user interface used by the concrete scenarios: one request
(opcode 0) with no arguments, no events. -/
def testIface : DynInterface :=
  { name := "test_iface", version := 1, requests := [[]], events := [] }

/-- Interface registry: resolves a schema interface name to its
compile-time descriptor (the role `I::as_dyn()` plays in generated
code). -/
def lookupIface : String → DynInterface
  | "wl_display" => wlDisplayIface
  | "wl_callback" => wlCallbackIface
  | "wl_registry" => wlRegistryIface
  | "test_iface" => testIface
  | _ => DynInterface.new_anonymous

/-- The `TypeId` tag of the unit type `()`, the user-data type of every
implementation this development registers. -/
def unitTag : Nat := 0

/-- Model of the `Box<dyn Any>` in `Object::data`: `plain t` is
`Box::new(v)` for a bare `v` of type-tag `t` (what `Object::new` stores
for `()`); `owner t` is `Box::new(Owner::new(v))` (what
`Object::set_data` stores). -/
inductive DataBox
  | plain (ty : Nat)
  | owner (ty : Nat)
deriving DecidableEq, Repr

/-- The closed universe of handler implementations used by this
development (`ObjectImplementation` instances). -/
inductive ImplKind
  /-- Source `Dispatcher::null`: `NullImpl`, logs and discards requests. -/
  | nullImpl
  /-- Source `client.rs` `WlDisplayImplementation`. -/
  | wlDisplayImpl
  /-- Source `client.rs` `WlRegistryImplementation`. -/
  | wlRegistryImpl
  /-- Source `register_fn((), |_, _, _| { }, |_, _| { })`: the no-op
  implementation installed on sync callbacks. -/
  | noopFn
  /-- A test handler whose request handler calls `this.destroy()` `n`
  times and whose destructor does nothing. -/
  | destroySelf (n : Nat)
deriving DecidableEq, Repr

/-- Source `object.rs` `Dispatcher`: the type-erased implementation bundle plus
the `destroyed` flag.  `iface` is the `I` and `dataTag` the `T` of the
underlying `RawObjectImplementationConcrete<I, T, Impl>`. -/
structure Dispatcher where
  iface : DynInterface
  dataTag : Nat
  kind : ImplKind
  destroyed : Bool
deriving DecidableEq, Repr

/-- Source `Dispatcher::new`. -/
def Dispatcher.new (iface : DynInterface) (dataTag : Nat) (kind : ImplKind) : Dispatcher :=
  ⟨iface, dataTag, kind, false⟩

/-- Source `Dispatcher::null::<I>()`: a fresh dispatcher around `NullImpl`, whose
user-data type is `()`. -/
def Dispatcher.null (iface : DynInterface) : Dispatcher :=
  ⟨iface, unitTag, .nullImpl, false⟩

/-- Source `object.rs` `Object`.  `key` is the `loaner` identity of the owning
allocation (what a `Handle<Object>` refers to). -/
structure Object where
  key : Nat
  id : Nat
  interface : DynInterface
  dispatcher : Option Dispatcher
  data : DataBox
  destroy : Bool
deriving DecidableEq, Repr

/-- Source `Object::new::<I, _>(id)`: statically known interface, null
dispatcher, data `Box::new(())` (a bare unit value, not an `Owner`). -/
def Object.new (key id : Nat) (iface : DynInterface) : Object :=
  ⟨key, id, iface, some (Dispatcher.null iface), .plain unitTag, false⟩

/-- Source `Object::new_anonymous(id)`. -/
def Object.new_anonymous (key id : Nat) : Object :=
  ⟨key, id, DynInterface.new_anonymous, none, .plain unitTag, false⟩

/-- Source `Object::set_data`: replaces the data box with `Box::new(Owner::new(v))`. -/
def Object.set_data (o : Object) (ty : Nat) : Object :=
  { o with data := .owner ty }

/-- Source `Object::get_data::<T>`: succeeds iff the box holds an `Owner<T>`
(a bare value of type `T` does not downcast to `Owner<T>`). -/
def Object.get_data (o : Object) (ty : Nat) : Bool :=
  match o.data with
  | .owner t => t == ty
  | .plain _ => false

/-- Source `Resource::downcast_both::<I, T>` on an object: interface equality
(`downcast_interface`) and user-data downcast (`downcast_data`). -/
def downcastOk (d : Dispatcher) (o : Object) : Bool :=
  o.interface == d.iface && o.get_data d.dataTag

/-- Source `ObjectMap::add`: a plain `Vec::push`, no duplicate-id check. -/
def ObjectMap.add (m : List Object) (o : Object) : List Object :=
  m ++ [o]

/-- Remove the first element satisfying `p` (`Vec::remove` at the found
position), returning it and the remaining list. -/
def removeFirstWhere (p : Object → Bool) : List Object → Option (Object × List Object)
  | [] => none
  | o :: rest =>
    if p o then some (o, rest)
    else (removeFirstWhere p rest).map (fun q => (q.1, o :: q.2))

/-- Source `ObjectMap::remove` by handle identity. -/
def ObjectMap.removeByKey (m : List Object) (k : Nat) : List Object :=
  match removeFirstWhere (fun o => o.key == k) m with
  | some (_, rest) => rest
  | none => m

/-- Resolve a `Handle<Object>` within one object table. -/
def ObjectMap.findByKey (m : List Object) (k : Nat) : Option Object :=
  m.find? (fun o => o.key == k)

/-- Source `Client::find_by_id` (and `find_by_id_anonymous`): first object whose
protocol id matches. -/
def ObjectMap.findById (m : List Object) (id : Nat) : Option Object :=
  m.find? (fun o => o.id == id)

/-- Source `ObjectMap::next_pending_destroy`: remove and return the first object
whose destroy flag is set. -/
def ObjectMap.next_pending_destroy (m : List Object) : Option (Object × List Object) :=
  removeFirstWhere (fun o => o.destroy) m

/-- A message handed to the transport by `Client::try_send_event`
(`DynMessage::new(object.id, opcode, args)`).  The byte-level framing
(`into_raw` + `NetClient::try_send_message`) is modelled separately by
`NetClient`; here the transport is observed at message granularity. -/
structure DynMsg where
  sender : Nat
  opcode : Nat
  args : List DynArgument
deriving DecidableEq, Repr

/-- Ghost trace events recording the observable order of destruction
steps.  `destructorRun k` is appended exactly when the user destructor of
object `k` is invoked, `removed k` when object `k` leaves its table,
`sentMsg` when a message is handed to a transport, `logError` when the
server logs an error and continues. -/
inductive TraceEv
  | destructorRun (objKey : Nat)
  | removed (objKey : Nat)
  | sentMsg (clientKey : Nat) (m : DynMsg)
  | logError
deriving DecidableEq, Repr

/-- Source `client.rs` `Client`: the object table, the per-client transport
(observed as the list of messages handed to it, in order) and the
display/registry back-references.  `displayKey` is the object handle of
the `wl_display` object installed by `Client::new` before any byte is
read; the source stores it as an `Option` that is always `Some` from
construction on. -/
structure Client where
  key : Nat
  objects : List Object
  sent : List DynMsg
  displayKey : Nat
  registryKey : Option Nat
deriving DecidableEq, Repr

/-- Source `server.rs` `Server` (together with `ClientManager`): the connected
clients, the `loaner` key allocator, the serial counter and the ghost
trace. -/
structure Server where
  clients : List Client
  nextKey : Nat
  next_serial_counter : Nat
  trace : List TraceEv
deriving DecidableEq, Repr

/-- Source `Server::next_serial`: returns the counter and increments it (the
u32-exhaustion panic of the source is outside every modelled run). -/
def Server.next_serial (s : Server) : Nat × Server :=
  (s.next_serial_counter, { s with next_serial_counter := s.next_serial_counter + 1 })

def Server.findClient (s : Server) (ck : Nat) : Option Client :=
  s.clients.find? (fun c => c.key == ck)

/-- Apply `f` to the client with key `ck` (a `RefCell` write through the
client handle). -/
def Server.updateClient (s : Server) (ck : Nat) (f : Client → Client) : Server :=
  { s with clients := s.clients.map (fun c => if c.key == ck then f c else c) }

/-- Resolve an object `Handle` the way `loaner` does: the owner lives in
whichever table holds it. -/
def Server.lookup_object (s : Server) (objKey : Nat) : Option Object :=
  ObjectMap.findByKey (s.clients.flatMap (fun c => c.objects)) objKey

/-- Apply `f` to the object with key `objKey`, wherever it lives (a write
through an object handle). -/
def Server.update_object (s : Server) (objKey : Nat) (f : Object → Object) : Server :=
  { s with clients := s.clients.map (fun c =>
      { c with objects := c.objects.map (fun o => if o.key == objKey then f o else o) }) }

/-- Source `server.rs` `SendEventError` (the variants the message-granular model
can produce). -/
inductive SendEventError
  | clientMissing
  | senderMissing
deriving DecidableEq, Repr

/-- Source `Client::try_send_event`: resolve the sender object, build the
`DynMessage` and hand it to the transport. -/
def Server.try_send_event (s : Server) (ck senderKey opcode : Nat) (args : List DynArgument) :
    Except SendEventError Server :=
  match s.findClient ck with
  | none => .error .clientMissing
  | some c =>
    match ObjectMap.findByKey c.objects senderKey with
    | none => .error .senderMissing
    | some o =>
      let m : DynMsg := ⟨o.id, opcode, args⟩
      let s2 := s.updateClient ck (fun c2 => { c2 with sent := c2.sent ++ [m] })
      .ok { s2 with trace := s2.trace ++ [TraceEv.sentMsg ck m] }

/-- Source `Resource::send_event`: `try_send_event`, logging on failure. -/
def Server.send_event (s : Server) (ck senderKey opcode : Nat) (args : List DynArgument) : Server :=
  match s.try_send_event ck senderKey opcode args with
  | .ok s2 => s2
  | .error _ => { s with trace := s.trace ++ [TraceEv.logError] }

/-- Source `Client::remove_object`: remove the object from the table, then send
`wl_display.delete_id(object.id)` through the display resource (the
object `Ref` the caller holds still carries `id` and `key`). -/
def Server.remove_object (s : Server) (ck : Nat) (obj : Object) : Server :=
  let s1 := s.updateClient ck (fun c =>
    { c with objects := ObjectMap.removeByKey c.objects obj.key })
  let s2 := { s1 with trace := s1.trace ++ [TraceEv.removed obj.key] }
  match s2.findClient ck with
  | none => s2
  | some c => s2.send_event ck c.displayKey 1 [.uint obj.id]

/-- Source `object.rs` `DispatchError`. -/
inductive FromArgsError
  | unknownOpcode (op : Nat)
  | nullArgument
  | resourceDoesntExist
  | insufficientArguments
  | incorrectArguments
deriving DecidableEq, Repr

inductive DispatchError
  | typeMismatch
  | objectDestroyed
  | argumentError (e : FromArgsError)
deriving DecidableEq, Repr

/-- Source `Dispatcher::dispatch_destructor`: fails when the destroyed flag is
already set; otherwise runs the inner (downcasting) destructor dispatch
and sets the flag afterwards whether or not the inner dispatch
succeeded.  The typed destructors of every modelled implementation have
no effect on the server state, so the inner dispatch is its downcast. -/
def Dispatcher.dispatch_destructor (d : Dispatcher) (o : Object) :
    Except DispatchError Unit × Dispatcher :=
  if d.destroyed then (.error .objectDestroyed, d)
  else if downcastOk d o then (.ok (), { d with destroyed := true })
  else (.error .typeMismatch, { d with destroyed := true })

/-- Source `Server::run_object_destructor` applied to an owned object value:
dispatch the destructor if a dispatcher is present, log on failure. -/
def Server.run_object_destructor_on (s : Server) (obj : Object) : Server × Object :=
  match obj.dispatcher with
  | none => (s, obj)
  | some d =>
    match d.dispatch_destructor obj with
    | (.ok _, d2) =>
      ({ s with trace := s.trace ++ [TraceEv.destructorRun obj.key] },
       { obj with dispatcher := some d2 })
    | (.error _, d2) =>
      ({ s with trace := s.trace ++ [TraceEv.logError] },
       { obj with dispatcher := some d2 })

/-- Source `Server::run_object_destructor` on an object still inside its table. -/
def Server.run_object_destructor (s : Server) (ck objKey : Nat) : Server :=
  match s.findClient ck with
  | none => s
  | some c =>
    match ObjectMap.findByKey c.objects objKey with
    | none => s
    | some obj =>
      let (s2, obj2) := s.run_object_destructor_on obj
      s2.updateClient ck (fun c2 =>
        { c2 with objects := c2.objects.map (fun o => if o.key == objKey then obj2 else o) })

/-- Source `Server::destroy_object`: destructor callback first, then
`Client::remove_object` (which removes and then sends `delete_id`). -/
def Server.destroy_object (s : Server) (ck objKey : Nat) : Server :=
  match s.findClient ck with
  | none => s
  | some c =>
    match ObjectMap.findByKey c.objects objKey with
    | none => s
    | some obj =>
      let s2 := s.run_object_destructor ck objKey
      s2.remove_object ck obj

/-- The `while let Some(object) = ... next_pending_destroy()` loop of
`Server::destroy_pending` for one client.  `fuel` bounds the iteration
count; since no modelled destructor adds objects or destroy flags,
`objects.length + 1` fuel reproduces the source loop exactly.  Note that
`next_pending_destroy` removes the object from the table before the
destructor runs, and nothing here sends `wl_display.delete_id`. -/
def Server.sweep_client (s : Server) (ck : Nat) : Nat → Server
  | 0 => s
  | fuel + 1 =>
    match s.findClient ck with
    | none => s
    | some c =>
      match ObjectMap.next_pending_destroy c.objects with
      | none => s
      | some (obj, rest) =>
        let s1 := s.updateClient ck (fun c2 => { c2 with objects := rest })
        let s2 := { s1 with trace := s1.trace ++ [TraceEv.removed obj.key] }
        let (s3, _) := s2.run_object_destructor_on obj
        s3.sweep_client ck fuel

/-- Source `Server::destroy_pending`: sweep every client in order. -/
def Server.destroy_pending (s : Server) : Server :=
  (s.clients.map (fun c => c.key)).foldl
    (fun acc ck =>
      match acc.findClient ck with
      | none => acc
      | some c => acc.sweep_client ck (c.objects.length + 1))
    s

/-- Source `Resource::destroy`: set the destroy-pending flag if the handle still
resolves; a no-op on a dead handle. -/
def Server.resource_destroy (s : Server) (objKey : Nat) : Server :=
  s.update_object objKey (fun o => { o with destroy := true })

/-- Source `ClientMap::add_new_id::<I>`: create `Object::new::<I, _>(id)` with a
fresh key and push it into the object table of client `ck`. -/
def ClientMap.add_new_id (s : Server) (ck : Nat) (iface : DynInterface) (id : Nat) :
    Server × Nat :=
  let key := s.nextKey
  let obj := Object.new key id iface
  let s1 := s.updateClient ck (fun c => { c with objects := ObjectMap.add c.objects obj })
  ({ s1 with nextKey := key + 1 }, key)

/-- Source `ClientMap::add_new_id_untyped`. -/
def ClientMap.add_new_id_untyped (s : Server) (ck : Nat) (id : Nat) : Server × Nat :=
  let key := s.nextKey
  let obj := Object.new_anonymous key id
  let s1 := s.updateClient ck (fun c => { c with objects := ObjectMap.add c.objects obj })
  ({ s1 with nextKey := key + 1 }, key)

/-- The resolved form of one request argument, as seen by a typed
handler. -/
inductive RArg
  | int (v : Int)
  | uint (v : Nat)
  | fixed (v : Nat)
  | str (v : Option (List Nat))
  | obj (k : Option Nat)
  | newId (k : Nat)
  | array (v : List Nat)
  | fd (v : Int)
deriving DecidableEq, Repr

/-- One step of the generated `from_args` body (per §4.7 parser-emission
rules, mirroring the straight-line code `wl_scanner` emits): narrow the
dynamic argument, apply null checks for non-nullable schema slots,
resolve object ids through the client view, and allocate `new_id`
objects. -/
def fromArgsOne (s : Server) (ck : Nat) (d : ArgumentDesc) (a : DynArgument) :
    Server × Except FromArgsError RArg :=
  match d.arg_type, a with
  | .int, .int v => (s, .ok (.int v))
  | .uint, .uint v => (s, .ok (.uint v))
  | .fixed, .fixed v => (s, .ok (.fixed v))
  | .string, .string v =>
    if d.allow_null then (s, .ok (.str v))
    else
      match v with
      | none => (s, .error .nullArgument)
      | some bs => (s, .ok (.str (some bs)))
  | .object, .object vOpt =>
    match vOpt with
    | none => if d.allow_null then (s, .ok (.obj none)) else (s, .error .nullArgument)
    | some id =>
      match s.findClient ck with
      | none => (s, .error .resourceDoesntExist)
      | some c =>
        match ObjectMap.findById c.objects id with
        | some o => (s, .ok (.obj (some o.key)))
        | none => (s, .error .resourceDoesntExist)
  | .newId, .newId id _ =>
    match d.interface with
    | some nm =>
      let (s2, k) := ClientMap.add_new_id s ck (lookupIface nm) id
      (s2, .ok (.newId k))
    | none =>
      let (s2, k) := ClientMap.add_new_id_untyped s ck id
      (s2, .ok (.newId k))
  | .array, .array v => (s, .ok (.array v))
  | .fd, .fd v => (s, .ok (.fd v))
  | _, _ => (s, .error .incorrectArguments)

/-- The generated `from_args` over a whole schema.  Objects created for
`new_id` arguments before a later argument fails stay in the table, as in
the source. -/
def fromArgsList (s : Server) (ck : Nat) :
    List ArgumentDesc → List DynArgument → Server × Except FromArgsError (List RArg)
  | [], _ => (s, .ok [])
  | d :: ds, [] =>
    let _ := d
    let _ := ds
    (s, .error .insufficientArguments)
  | d :: ds, a :: rest =>
    match fromArgsOne s ck d a with
    | (s1, .error e) => (s1, .error e)
    | (s1, .ok ra) =>
      match fromArgsList s1 ck ds rest with
      | (s2, .error e) => (s2, .error e)
      | (s2, .ok ras) => (s2, .ok (ra :: ras))

/-- Source `I::Request::from_args`: route by opcode through the schema table;
an unknown opcode yields `FromArgsError::UnknownOpcode`. -/
def fromArgs (s : Server) (ck : Nat) (iface : DynInterface) (opcode : Nat)
    (args : List DynArgument) : Server × Except FromArgsError (List RArg) :=
  match iface.requests.get? opcode with
  | none => (s, .error (.unknownOpcode opcode))
  | some descs => fromArgsList s ck descs args

/-- Source `resource.rs` `Resource`/`NewResource` handle pairs. -/
structure NewResourceM where
  client : Nat
  object : Nat
deriving DecidableEq, Repr

structure ResourceM where
  client : Nat
  object : Nat
deriving DecidableEq, Repr

/-- Source `NewResource::register(data, implementation)`: when the object handle
still resolves, install a fresh dispatcher and the `Owner`-boxed data;
when it is dead, do nothing.  Either way return a `Resource` carrying the
same handles. -/
def NewResourceM.register (nr : NewResourceM) (s : Server) (iface : DynInterface)
    (dataTag : Nat) (kind : ImplKind) : Server × ResourceM :=
  match s.lookup_object nr.object with
  | none => (s, ⟨nr.client, nr.object⟩)
  | some _ =>
    (s.update_object nr.object (fun o =>
      Object.set_data { o with dispatcher := some (Dispatcher.new iface dataTag kind) } dataTag),
     ⟨nr.client, nr.object⟩)

/-- The semantics of the typed handlers (`ObjectImplementation::handle`)
of the modelled implementations, invoked by the dispatcher after a
successful downcast and `from_args`.

`wlDisplayImpl` mirrors `client.rs` `WlDisplayImplementation::handle`:
* `Sync` (opcode 0): `register_fn((), noop, noop)` on the callback, then
  `send_event(WlCallbackEvent::Done(DoneEvent { callback_data: 1 }))` —
  the source hard-codes 1 and never touches `next_serial`, and it never
  marks the callback destroy-pending.
* `GetRegistry` (opcode 1): `register((), WlRegistryImplementation)`,
  store the registry on the client, advertise the current globals (the
  global list of the model is empty, so nothing is advertised).

`wlRegistryImpl` mirrors `WlRegistryImplementation::handle`: `Bind`
resolves the named global; with no globals registered
`GlobalManager::bind_global` logs an error. -/
def Server.run_handler (s : Server) (ck objKey : Nat) (kind : ImplKind) (opcode : Nat)
    (view : List RArg) : Server :=
  match kind with
  | .nullImpl => s
  | .noopFn => s
  | .destroySelf n => (List.range n).foldl (fun acc _ => acc.resource_destroy objKey) s
  | .wlRegistryImpl => { s with trace := s.trace ++ [TraceEv.logError] }
  | .wlDisplayImpl =>
    match opcode, view with
    | 0, [.newId cbKey] =>
      let (s1, _) := NewResourceM.register ⟨ck, cbKey⟩ s wlCallbackIface unitTag .noopFn
      s1.send_event ck cbKey 0 [.uint 1]
    | 1, [.newId regKey] =>
      let (s1, _) := NewResourceM.register ⟨ck, regKey⟩ s wlRegistryIface unitTag .wlRegistryImpl
      s1.updateClient ck (fun c => { c with registryKey := some regKey })
    | _, _ => s

/-- Source `Dispatcher::dispatch` followed by
`RawObjectImplementationConcrete::dispatch`: destroyed-flag check,
downcast of the anonymous resource, `from_args`, then the typed handler.
Returns the updated server (including objects already created by a
partially successful `from_args`) and the error, if any. -/
def Server.dispatch_request (s : Server) (ck objKey : Nat) (d : Dispatcher) (o : Object)
    (opcode : Nat) (args : List DynArgument) : Server × Option DispatchError :=
  if d.destroyed then (s, some .objectDestroyed)
  else if ¬ downcastOk d o then (s, some .typeMismatch)
  else
    match fromArgs s ck d.iface opcode args with
    | (s2, .error e) => (s2, some (.argumentError e))
    | (s2, .ok view) => (s2.run_handler ck objKey d.kind opcode view, none)

/-- Source `wire.rs` `MessageHeader`. -/
structure MessageHeader where
  sender : Nat
  opcode : Nat
  msg_size : Nat
deriving DecidableEq, Repr

/-- Source `MessageHeader::from_bytes`: exactly 8 bytes, native-endian
`u32 sender`, `u16 opcode`, `u16 size`. -/
def MessageHeader.from_bytes (bytes : List Nat) : Except Unit MessageHeader :=
  if bytes.length = 8 then
    .ok ⟨leNat (bytes.take 4), leNat ((bytes.drop 4).take 2), leNat (bytes.drop 6)⟩
  else
    .error ()

/-- Source `wire.rs` `RawMessage`: header plus payload (header bytes stripped)
plus the received fds. -/
structure RawMessage where
  header : MessageHeader
  data : List Nat
  fds : List Int
deriving DecidableEq, Repr

/-- Source `server.rs` `ServerError` (the variants reachable in the model). -/
inductive ServerError
  | requestReceiverDoesntExist
  | invalidArguments (e : ParseRawError)
deriving DecidableEq, Repr

/-- Result of `Server::handle_client_message`: success, a returned error
(which `Server::run` merely logs), or a Rust panic. -/
inductive HCMResult
  | ok (s : Server)
  | err (e : ServerError) (s : Server)
  | panicked
deriving DecidableEq, Repr

/-- The tail of `handle_client_message`: after dispatch, re-read the
destroy flag through the object `Ref` and run `destroy_object` when it is
set. -/
def Server.post_dispatch (s1 : Server) (ck objKey : Nat) : HCMResult :=
  match s1.lookup_object objKey with
  | some o2 => if o2.destroy then .ok (s1.destroy_object ck objKey) else .ok s1
  | none => .ok s1

/-- Source `Server::handle_client_message`: look up the sender object, parse the
payload against the schema for `(interface, opcode)`, dispatch (logging
dispatch errors), then destroy the object if the handler flagged it.
`interface.requests[opcode]` is a Rust slice index: an unknown opcode
panics.  Parse failures are returned as errors without touching the
state. -/
def Server.handle_client_message (s : Server) (ck : Nat) (raw : RawMessage) : HCMResult :=
  match s.findClient ck with
  | none => .panicked
  | some c =>
    match ObjectMap.findById c.objects raw.header.sender with
    | none => .err ServerError.requestReceiverDoesntExist s
    | some o =>
      match o.interface.requests.get? raw.header.opcode with
      | none => .panicked
      | some schema =>
        match parse_dyn_args schema ⟨raw.data, raw.fds, 0⟩ with
        | .error e => .err (ServerError.invalidArguments e) s
        | .ok (args, _) =>
          let s1 :=
            match o.dispatcher with
            | none => { s with trace := s.trace ++ [TraceEv.logError] }
            | some d =>
              match s.dispatch_request ck o.key d o raw.header.opcode args with
              | (s2, none) => s2
              | (s2, some _) => { s2 with trace := s2.trace ++ [TraceEv.logError] }
          s1.post_dispatch ck o.key

/-- Result of one `Server::dispatch` iteration as driven by
`Server::run`. -/
inductive IterResult
  | ok (s : Server)
  | panicked
deriving DecidableEq, Repr

/-- The route-and-sweep part of one `Server::dispatch` iteration, with the
error handling of `Server::run`: on success `destroy_pending` runs; an
error returned by `handle_client_message` skips the sweep (the `?`
operator) and is logged by `run`, which then continues — the client is
never disconnected. -/
def Server.run_iteration (s : Server) (ck : Nat) (raw : RawMessage) : IterResult :=
  match s.handle_client_message ck raw with
  | .ok s1 => .ok s1.destroy_pending
  | .err _ s1 => .ok { s1 with trace := s1.trace ++ [TraceEv.logError] }
  | .panicked => .panicked

/-- Source `Client::new`: the object table is seeded with `wl_display` at id 1
(`Object::new`, so its data box holds a bare `()`), whose dispatcher is
then replaced by `WlDisplayImplementation` via `set_implementation`
(which does not touch the data box). -/
def Client.new (ckey dispKey : Nat) : Client :=
  { key := ckey
    objects := [{ Object.new dispKey 1 wlDisplayIface with
                  dispatcher := some (Dispatcher.new wlDisplayIface unitTag .wlDisplayImpl) }]
    sent := []
    displayKey := dispKey
    registryKey := none }

/-- A freshly accepted connection: one client (key 10, `wl_display` object
at id 1 under key 0), serial counter at 1, as `Server::new` +
`create_client` leave it. -/
def scenarioBase : Server :=
  { clients := [Client.new 10 0], nextKey := 1, next_serial_counter := 1, trace := [] }

/-- The `wl_display.sync` request path: `from_args` for opcode 0 creates
the callback object, the cited handler (`client.rs`
`WlDisplayImplementation::handle`) registers the no-op implementation on
it and sends `done`, then the destroy flag is checked as at the end of
`handle_client_message`.  This composite invokes the cited handler
directly; the dispatcher downcast layer in front of it is exercised by
its own theorems. -/
def Server.sync_request (s : Server) (ck dispObjKey : Nat) (args : List DynArgument) : Server :=
  match fromArgs s ck wlDisplayIface 0 args with
  | (s1, .error _) => { s1 with trace := s1.trace ++ [TraceEv.logError] }
  | (s1, .ok view) =>
    let s2 := s1.run_handler ck dispObjKey .wlDisplayImpl 0 view
    match s2.lookup_object dispObjKey with
    | some o2 => if o2.destroy then s2.destroy_object ck dispObjKey else s2
    | none => s2

/-- Helper for scenario states: the base client with one extra object
appended to its table. -/
def clientWith (extra : Object) : Client :=
  { Client.new 10 0 with objects := (Client.new 10 0).objects ++ [extra] }

/-- Scenario object for the sweep: a properly registered (no-op
implementation, `Owner`-boxed unit data) object at id 7, already marked
destroy-pending. -/
def sweepObj : Object :=
  { key := 1, id := 7, interface := testIface,
    dispatcher := some (Dispatcher.new testIface unitTag .noopFn),
    data := .owner unitTag, destroy := true }

/-- Scenario: base client plus `sweepObj`. -/
def sweepScenario : Server :=
  { clients := [clientWith sweepObj], nextKey := 2, next_serial_counter := 1, trace := [] }

/-- Scenario object whose request handler calls `destroy()` twice on its
own resource. -/
def destroyTwiceObj : Object :=
  { key := 1, id := 7, interface := testIface,
    dispatcher := some (Dispatcher.new testIface unitTag (.destroySelf 2)),
    data := .owner unitTag, destroy := false }

/-- Scenario: base client plus `destroyTwiceObj`. -/
def destroyTwiceScenario : Server :=
  { clients := [clientWith destroyTwiceObj], nextKey := 2, next_serial_counter := 1, trace := [] }

/-- Scenario: base client plus a freshly created, never-registered object
at id 5 (null dispatcher, bare-unit data box). -/
def freshObjScenario : Server :=
  { clients := [clientWith (Object.new 1 5 testIface)], nextKey := 2,
    next_serial_counter := 1, trace := [] }

/-! ### The framed byte transport (`wl_server/src/net.rs`)

`NetClient` models one connection: the inbound buffer and fd queue, the
kernel receive queue (`recv_chunks`, one entry per successful `recvmsg`,
empty queue meaning EAGAIN), the outbound buffer, and a kernel send model
(`send_cap` bytes accepted per `sendmsg` call, 0 meaning EAGAIN).
`wire_sent` records the bytes the kernel accepted, for observation. -/

def DATA_BUFFER_SIZE : Nat := 16384
def FD_BUFFER_SIZE : Nat := 16
def RECV_TRIES : Nat := 2
def FLUSH_TRIES : Nat := 2

structure NetClient where
  in_data : List Nat
  in_fds : List Int
  recv_chunks : List (List Nat × List Int)
  out_data : List Nat
  out_fds : List Int
  send_cap : Nat
  wire_sent : List Nat
deriving DecidableEq, Repr

/-- Source `net.rs` `NetError` (the variants reachable in the model). -/
inductive NetError
  | insufficientData
  | bufferFull
  | invalidMessage
deriving DecidableEq, Repr

/-- Source `NetClient::try_fill_buffer`: one `recvmsg`; EAGAIN returns `false`. -/
def NetClient.try_fill_buffer (nc : NetClient) : Bool × NetClient :=
  match nc.recv_chunks with
  | [] => (false, nc)
  | (bs, fs) :: rest =>
    (true, { nc with in_data := nc.in_data ++ bs, in_fds := nc.in_fds ++ fs,
                     recv_chunks := rest })

/-- Source `NetClient::try_fill_buffer_until`: up to `tries` receive attempts,
returning whether the buffer now holds `data_len` bytes and `fd_count`
fds. -/
def NetClient.try_fill_buffer_until (nc : NetClient) (data_len fd_count : Nat) :
    Nat → Bool × NetClient
  | 0 => (decide (data_len ≤ nc.in_data.length ∧ fd_count ≤ nc.in_fds.length), nc)
  | tries + 1 =>
    let (_, nc1) := nc.try_fill_buffer
    if data_len ≤ nc1.in_data.length ∧ fd_count ≤ nc1.in_fds.length then (true, nc1)
    else nc1.try_fill_buffer_until data_len fd_count tries

/-- Result of `NetClient::try_read_message`. -/
inductive ReadResult
  | pending
  | msg (m : RawMessage) (nc : NetClient)
  | err (e : NetError) (nc : NetClient)
  | panicked
deriving DecidableEq, Repr

/-- Source `NetClient::try_read_message`: fill until a header is buffered, decode
it, look up the sender object to count expected fds, fill until `size`
bytes and the fds are buffered, then split the message off the buffer.
The source never validates `size`: `MessageBuffer::advance` returns the
first `size` bytes and `RawMessage` construction slices `data[8..]`,
which panics when `size < 8`; and `requests[opcode]` panics on an unknown
opcode. -/
def NetClient.try_read_message (nc : NetClient) (objects : List Object) : ReadResult :=
  let (gotHeader, nc1) := nc.try_fill_buffer_until 8 0 RECV_TRIES
  if ¬ gotHeader then .pending
  else
    match MessageHeader.from_bytes (nc1.in_data.take 8) with
    | .error _ => .panicked
    | .ok header =>
      match objects.find? (fun o => o.id == header.sender) with
      | none => .err .invalidMessage nc1
      | some o =>
        match o.interface.requests.get? header.opcode with
        | none => .panicked
        | some schema =>
          let expected_fds := (schema.filter (fun a => a.arg_type == .fd)).length
          let (gotBody, nc2) := nc1.try_fill_buffer_until header.msg_size expected_fds RECV_TRIES
          if ¬ gotBody then .err .insufficientData nc2
          else
            let data := nc2.in_data.take header.msg_size
            let fds := nc2.in_fds.take expected_fds
            let nc3 := { nc2 with in_data := nc2.in_data.drop header.msg_size,
                                  in_fds := nc2.in_fds.drop expected_fds }
            if header.msg_size < 8 then .panicked
            else .msg ⟨header, data.drop 8, fds⟩ nc3

/-- Source `MessageBuffer::append`: fails with `BufferFull` when either bound
would be exceeded. -/
def NetClient.buffer_append (nc : NetClient) (data : List Nat) (fds : List Int) :
    Except NetError NetClient :=
  if DATA_BUFFER_SIZE < nc.out_data.length + data.length then .error .bufferFull
  else if FD_BUFFER_SIZE < nc.out_fds.length + fds.length then .error .bufferFull
  else .ok { nc with out_data := nc.out_data ++ data, out_fds := nc.out_fds ++ fds }

/-- Kernel model of non-blocking `sendmsg`: an empty payload sends 0
bytes; otherwise up to `send_cap` bytes are accepted, EAGAIN when the
socket accepts none. -/
inductive SendOutcome
  | sent (n : Nat)
  | eagain
deriving DecidableEq, Repr

def sendmsgModel (cap : Nat) (data : List Nat) : SendOutcome :=
  if data.isEmpty then .sent 0
  else if cap = 0 then .eagain
  else .sent (min cap data.length)

/-- Source `NetClient::try_send_data`: `Ok(n)` with `n > 0` buffers the unsent
tail and reports `false`; `Ok(0)` reports `true`; EAGAIN buffers
everything and reports `false`. -/
def NetClient.try_send_data (nc : NetClient) (data : List Nat) (fds : List Int) :
    Except NetError (Bool × NetClient) :=
  match sendmsgModel nc.send_cap data with
  | .sent n =>
    if 0 < n then
      match nc.buffer_append (data.drop n) [] with
      | .error e => .error e
      | .ok nc2 => .ok (false, { nc2 with wire_sent := nc2.wire_sent ++ data.take n })
    else .ok (true, nc)
  | .eagain =>
    match nc.buffer_append data fds with
    | .error e => .error e
    | .ok nc2 => .ok (false, nc2)

/-- The retry loop of `NetClient::flush`: `advance_all` then
`try_send_data`, up to the given number of tries. -/
def NetClient.flush_loop (nc : NetClient) : Nat → Except NetError (Bool × NetClient)
  | 0 => .ok (false, nc)
  | t + 1 =>
    let data := nc.out_data
    let fds := nc.out_fds
    let nc1 := { nc with out_data := [], out_fds := [] }
    match nc1.try_send_data data fds with
    | .error e => .error e
    | .ok (true, nc2) => .ok (true, nc2)
    | .ok (false, nc2) => nc2.flush_loop t

/-- Source `NetClient::flush`: trivially done when the outbound buffer is empty,
otherwise up to `FLUSH_TRIES` drain attempts. -/
def NetClient.flush (nc : NetClient) : Except NetError (Bool × NetClient) :=
  if nc.out_data.isEmpty ∧ nc.out_fds.isEmpty then .ok (true, nc)
  else nc.flush_loop FLUSH_TRIES

/-- The loop body of `ClientManager::flush_clients`:
`flushed = flushed && client.net.borrow_mut().flush()?`.  The `&&`
short-circuits, so once one client fails to drain fully, `flush` is not
even called on the clients after it. -/
def flushClientsFrom : List NetClient → Bool → Except NetError (Bool × List NetClient)
  | [], acc => .ok (acc, [])
  | nc :: rest, acc =>
    if acc then
      match nc.flush with
      | .error e => .error e
      | .ok (f, nc2) =>
        match flushClientsFrom rest f with
        | .error e => .error e
        | .ok (facc, rest2) => .ok (facc, nc2 :: rest2)
    else
      match flushClientsFrom rest false with
      | .error e => .error e
      | .ok (facc, rest2) => .ok (facc, nc :: rest2)

/-- Source `ClientManager::flush_clients`. -/
def ClientManager.flush_clients (cs : List NetClient) : Except NetError (Bool × List NetClient) :=
  flushClientsFrom cs true

/-- Observation helpers on an iteration result. -/
def IterResult.traceOf : IterResult → List TraceEv
  | .ok s => s.trace
  | .panicked => []

def IterResult.sentOf : IterResult → List (List DynMsg)
  | .ok s => s.clients.map (fun c => c.sent)
  | .panicked => []

def IterResult.objectIdsOf : IterResult → List (List Nat)
  | .ok s => s.clients.map (fun c => c.objects.map (fun o => o.id))
  | .panicked => []

/-- Scenario transport states: `c9a` has five buffered outbound bytes on a
socket that accepts one byte per `sendmsg`; `c9b` has one buffered byte on
a socket that accepts everything. -/
def c9a : NetClient := ⟨[], [], [], [1, 2, 3, 4, 5], [], 1, []⟩

def c9b : NetClient := ⟨[], [], [], [9], [], 100, []⟩

/-! ### Round-trip lemmas for the wire codec -/

theorem readBytes_ok {n : Nat} {r : Reader} {bs : List Nat} {r2 : Reader}
    (h : readBytes n r = .ok (bs, r2)) :
    r.data = bs ++ r2.data ∧ bs.length = n ∧ r2.fds = r.fds ∧ r2.nextFd = r.nextFd := by
  unfold readBytes at h
  split at h
  · rename_i hle
    injection h with h
    injection h with h1 h2
    subst h1; subst h2
    refine ⟨(List.take_append_drop n r.data).symm, ?_, rfl, rfl⟩
    simp [List.length_take, Nat.min_eq_left hle]
  · exact absurd h (by simp)

theorem leNat_lt {bs : List Nat} (h : ∀ b ∈ bs, b < 256) :
    leNat bs < 256 ^ bs.length := by
  induction bs with
  | nil => simp [leNat]
  | cons b rest ih =>
    have hb : b < 256 := h b (by simp)
    have hr : leNat rest < 256 ^ rest.length := ih (fun x hx => h x (by simp [hx]))
    simp only [leNat, List.length_cons, pow_succ]
    calc b + 256 * leNat rest < 256 * (leNat rest + 1) := by omega
    _ ≤ 256 * 256 ^ rest.length := Nat.mul_le_mul_left _ hr
    _ = 256 ^ rest.length * 256 := Nat.mul_comm _ _

theorem writeU32_leNat {bs : List Nat} (h4 : bs.length = 4)
    (h : ∀ b ∈ bs, b < 256) : writeU32 (leNat bs) = bs := by
  match bs, h4 with
  | [a, b, c, d], _ =>
    have ha : a < 256 := h a (by simp)
    have hb : b < 256 := h b (by simp)
    have hc : c < 256 := h c (by simp)
    have hd : d < 256 := h d (by simp)
    simp only [writeU32, leNat, List.cons.injEq, and_true]
    norm_num
    omega

theorem leNat_lt_u32 {bs : List Nat} (h4 : bs.length = 4)
    (h : ∀ b ∈ bs, b < 256) : leNat bs < 2 ^ 32 := by
  have := leNat_lt h
  rw [h4] at this
  norm_num at this ⊢
  omega

theorem writeI32_toI32 {n : Nat} (h : n < 2 ^ 32) :
    writeI32 (toI32 n) = writeU32 n := by
  unfold writeI32 toI32
  congr 1
  split <;> omega

theorem next_uint_ok {r : Reader} {n : Nat} {r2 : Reader}
    (h : r.next_uint = .ok (n, r2)) (hb : ∀ b ∈ r.data, b < 256) :
    r.data = writeU32 n ++ r2.data ∧ n < 2 ^ 32 ∧ r2.fds = r.fds ∧ r2.nextFd = r.nextFd := by
  unfold Reader.next_uint at h
  cases hrb : readBytes 4 r with
  | error e => rw [hrb] at h; exact absurd h (by simp [Bind.bind, Except.bind])
  | ok p =>
    obtain ⟨bs, r1⟩ := p
    rw [hrb] at h
    simp only [Bind.bind, Except.bind] at h
    injection h with h
    injection h with h1 h2
    subst h1; subst h2
    obtain ⟨hdata, hlen, hfds, hfd⟩ := readBytes_ok hrb
    have hbs : ∀ b ∈ bs, b < 256 := by
      intro b hbmem
      exact hb b (hdata ▸ List.mem_append_left _ hbmem)
    refine ⟨?_, leNat_lt_u32 hlen hbs, hfds, hfd⟩
    rw [writeU32_leNat hlen hbs]
    exact hdata

theorem next_int_ok {r : Reader} {v : Int} {r2 : Reader}
    (h : r.next_int = .ok (v, r2)) (hb : ∀ b ∈ r.data, b < 256) :
    r.data = writeI32 v ++ r2.data := by
  unfold Reader.next_int at h
  cases hu : r.next_uint with
  | error e => rw [hu] at h; exact absurd h (by simp [Bind.bind, Except.bind])
  | ok p =>
    obtain ⟨n, r1⟩ := p
    rw [hu] at h
    simp only [Bind.bind, Except.bind] at h
    injection h with h
    injection h with h1 h2
    subst h1; subst h2
    obtain ⟨hdata, hn, _, _⟩ := next_uint_ok hu hb
    rw [writeI32_toI32 hn]
    exact hdata

theorem padBytes_eq {pad : List Nat} {len : Nat}
    (hlen : pad.length = (4 - len % 4) % 4) (hz : ∀ b ∈ pad, b = 0) :
    pad = padBytes len := by
  unfold padBytes
  exact List.eq_replicate_iff.mpr ⟨hlen, hz⟩

theorem next_array_pad_ok {r : Reader} {v pad : List Nat} {r2 : Reader}
    (h : r.next_array_pad = .ok ((v, pad), r2)) (hb : ∀ b ∈ r.data, b < 256)
    (hz : ∀ b ∈ pad, b = 0) :
    r.data = writeU32 v.length ++ v ++ padBytes v.length ++ r2.data ∧
    v.length < 2 ^ 32 := by
  unfold Reader.next_array_pad at h
  cases hu : r.next_uint with
  | error e => rw [hu] at h; exact absurd h (by simp [Bind.bind, Except.bind])
  | ok p =>
    obtain ⟨len, r1⟩ := p
    rw [hu] at h
    simp only [Bind.bind, Except.bind] at h
    cases hv : readBytes len r1 with
    | error e => rw [hv] at h; exact absurd h (by simp)
    | ok q =>
      obtain ⟨v1, ra⟩ := q
      rw [hv] at h
      simp only at h
      cases hpad : readBytes ((4 - len % 4) % 4) ra with
      | error e => rw [hpad] at h; exact absurd h (by simp)
      | ok w =>
        obtain ⟨pad1, rb⟩ := w
        rw [hpad] at h
        simp only at h
        injection h with h
        injection h with h1 h2
        injection h1 with h1a h1b
        subst h1a; subst h1b; subst h2
        obtain ⟨hd1, hlen1, _, _⟩ := next_uint_ok hu hb
        obtain ⟨hd2, hlen2, _, _⟩ := readBytes_ok hv
        obtain ⟨hd3, hlen3, _, _⟩ := readBytes_ok hpad
        subst hlen2
        rw [padBytes_eq hlen3 hz] at hd3
        constructor
        · rw [hd1, hd2, hd3]
          simp
        · exact hlen1

/-- One parsed argument serializes back to exactly the bytes it was parsed
from, provided the skipped padding bytes were zero and the argument is not
a dynamic-interface `new_id`. -/
theorem serializeOneArg_parseOneArg {d : ArgumentDesc} {r : Reader}
    {a : DynArgument} {pad : List Nat} {r2 : Reader}
    (hp : parseOneArg d r = .ok ((a, pad), r2))
    (hb : ∀ b ∈ r.data, b < 256)
    (hanon : d.arg_type = .newId → d.interface.isSome)
    (hz : ∀ b ∈ pad, b = 0) :
    ∃ pre fs, r.data = pre ++ r2.data ∧ serializeOneArg a = .ok (pre, fs) := by
  cases harg : d.arg_type <;> simp only [parseOneArg, harg] at hp
  case int =>
    cases hi : r.next_int with
    | error e => rw [hi] at hp; exact absurd hp (by simp [Bind.bind, Except.bind])
    | ok p =>
      obtain ⟨v, r1⟩ := p
      rw [hi] at hp
      simp only [Bind.bind, Except.bind] at hp
      injection hp with hp
      injection hp with h1 h2
      injection h1 with h1a h1b
      subst h1a; subst h2
      exact ⟨writeI32 v, [], next_int_ok hi hb, rfl⟩
  case uint =>
    cases hi : r.next_uint with
    | error e => rw [hi] at hp; exact absurd hp (by simp [Bind.bind, Except.bind])
    | ok p =>
      obtain ⟨v, r1⟩ := p
      rw [hi] at hp
      simp only [Bind.bind, Except.bind] at hp
      injection hp with hp
      injection hp with h1 h2
      injection h1 with h1a h1b
      subst h1a; subst h2
      obtain ⟨hdata, _, _, _⟩ := next_uint_ok hi hb
      exact ⟨writeU32 v, [], hdata, rfl⟩
  case fixed =>
    cases hi : r.next_fixed with
    | error e => rw [hi] at hp; exact absurd hp (by simp [Bind.bind, Except.bind])
    | ok p =>
      obtain ⟨v, r1⟩ := p
      rw [hi] at hp
      simp only [Bind.bind, Except.bind] at hp
      injection hp with hp
      injection hp with h1 h2
      injection h1 with h1a h1b
      subst h1a; subst h2
      obtain ⟨hdata, _, _, _⟩ := next_uint_ok hi hb
      exact ⟨writeU32 v, [], hdata, rfl⟩
  case string =>
    simp only [Reader.next_string_pad] at hp
    cases ha : r.next_array_pad with
    | error e => rw [ha] at hp; exact absurd hp (by simp [Bind.bind, Except.bind])
    | ok p =>
      obtain ⟨⟨v, pad1⟩, r1⟩ := p
      rw [ha] at hp
      simp only [Bind.bind, Except.bind] at hp
      by_cases hv : v.isEmpty
      · rw [if_pos hv] at hp
        simp only at hp
        injection hp with hp
        injection hp with h1 h2
        injection h1 with h1a h1b
        subst h1a; subst h1b; subst h2
        have hvnil : v = [] := List.isEmpty_iff.mp hv
        subst hvnil
        obtain ⟨hdata, _⟩ := next_array_pad_ok ha hb hz
        refine ⟨writeU32 0, [], ?_, rfl⟩
        simpa [padBytes] using hdata
      · rw [if_neg hv] at hp
        simp only at hp
        injection hp with hp
        injection hp with h1 h2
        injection h1 with h1a h1b
        subst h1a; subst h1b; subst h2
        obtain ⟨hdata, hlen⟩ := next_array_pad_ok ha hb hz
        refine ⟨writeU32 v.length ++ v ++ padBytes v.length, [], by simpa using hdata, ?_⟩
        simp only [serializeOneArg, write_array, if_pos hlen, Bind.bind, Except.bind]
  case object =>
    simp only [Reader.next_object] at hp
    cases hi : r.next_uint with
    | error e => rw [hi] at hp; exact absurd hp (by simp [Bind.bind, Except.bind])
    | ok p =>
      obtain ⟨v, r1⟩ := p
      rw [hi] at hp
      simp only [Bind.bind, Except.bind] at hp
      obtain ⟨hdata, _, _, _⟩ := next_uint_ok hi hb
      by_cases hv : v = 0
      · rw [if_pos hv] at hp
        injection hp with hp
        injection hp with h1 h2
        injection h1 with h1a h1b
        subst h1a; subst h2
        subst hv
        exact ⟨writeU32 0, [], hdata, rfl⟩
      · rw [if_neg hv] at hp
        injection hp with hp
        injection hp with h1 h2
        injection h1 with h1a h1b
        subst h1a; subst h2
        exact ⟨writeU32 v, [], hdata, rfl⟩
  case newId =>
    have hsome : d.interface.isSome := hanon harg
    rw [if_pos hsome] at hp
    cases hi : r.next_new_id with
    | error e => rw [hi] at hp; exact absurd hp (by simp [Bind.bind, Except.bind])
    | ok p =>
      obtain ⟨v, r1⟩ := p
      rw [hi] at hp
      simp only [Bind.bind, Except.bind] at hp
      injection hp with hp
      injection hp with h1 h2
      injection h1 with h1a h1b
      subst h1a; subst h2
      obtain ⟨hdata, _, _, _⟩ := next_uint_ok hi hb
      exact ⟨writeU32 v, [], hdata, rfl⟩
  case array =>
    cases ha : r.next_array_pad with
    | error e => rw [ha] at hp; exact absurd hp (by simp [Bind.bind, Except.bind])
    | ok p =>
      obtain ⟨⟨v, pad1⟩, r1⟩ := p
      rw [ha] at hp
      simp only [Bind.bind, Except.bind] at hp
      injection hp with hp
      injection hp with h1 h2
      injection h1 with h1a h1b
      subst h1a; subst h1b; subst h2
      obtain ⟨hdata, hlen⟩ := next_array_pad_ok ha hb hz
      refine ⟨writeU32 v.length ++ v ++ padBytes v.length, [], by simpa using hdata, ?_⟩
      simp only [serializeOneArg, write_array, if_pos hlen, Bind.bind, Except.bind]
  case fd =>
    simp only [Reader.next_fd] at hp
    split at hp
    · simp only [Bind.bind, Except.bind] at hp
      injection hp with hp
      injection hp with h1 h2
      injection h1 with h1a h1b
      subst h1a; subst h2
      exact ⟨[], [r.fds.get ⟨r.nextFd, by assumption⟩], by simp, rfl⟩
    · exact absurd hp (by simp [Bind.bind, Except.bind])

/-- Parse-then-serialize round trip over a whole schema: the serialized
bytes are exactly the consumed prefix of the payload. -/
theorem serialize_parse_prefix {desc : List ArgumentDesc} {r : Reader}
    {args : List DynArgument} {pads : List Nat} {r2 : Reader}
    (hp : parse_dyn_args_pad desc r = .ok ((args, pads), r2))
    (hb : ∀ b ∈ r.data, b < 256)
    (hanon : ∀ d ∈ desc, d.arg_type = .newId → d.interface.isSome)
    (hz : ∀ b ∈ pads, b = 0) :
    ∃ pre fs, r.data = pre ++ r2.data ∧ serialize_raw_args args = .ok (pre, fs) := by
  induction desc generalizing r args pads with
  | nil =>
    unfold parse_dyn_args_pad at hp
    injection hp with hp
    injection hp with h1 h2
    injection h1 with h1a h1b
    subst h1a; subst h2
    exact ⟨[], [], by simp, rfl⟩
  | cons d rest ih =>
    unfold parse_dyn_args_pad at hp
    cases h1 : parseOneArg d r with
    | error e => rw [h1] at hp; exact absurd hp (by simp [Bind.bind, Except.bind])
    | ok p =>
      obtain ⟨⟨a, pad1⟩, ra⟩ := p
      rw [h1] at hp
      simp only [Bind.bind, Except.bind] at hp
      cases h2 : parse_dyn_args_pad rest ra with
      | error e => rw [h2] at hp; exact absurd hp (by simp)
      | ok q =>
        obtain ⟨⟨as2, pad2⟩, rb⟩ := q
        rw [h2] at hp
        simp only at hp
        injection hp with hp
        injection hp with hl hr
        injection hl with hla hlb
        subst hla; subst hr
        have hzsplit : (∀ b ∈ pad1, b = 0) ∧ ∀ b ∈ pad2, b = 0 := by
          constructor <;> intro b hbm
          · exact hz b (hlb ▸ List.mem_append_left _ hbm)
          · exact hz b (hlb ▸ List.mem_append_right _ hbm)
        obtain ⟨pre1, fs1, hd1, hs1⟩ :=
          serializeOneArg_parseOneArg h1 hb (hanon d (by simp)) hzsplit.1
        have hba : ∀ b ∈ ra.data, b < 256 := by
          intro b hbm
          exact hb b (hd1 ▸ List.mem_append_right _ hbm)
        obtain ⟨pre2, fs2, hd2, hs2⟩ :=
          ih h2 hba (fun x hx => hanon x (by simp [hx])) hzsplit.2
        refine ⟨pre1 ++ pre2, fs1 ++ fs2, ?_, ?_⟩
        · rw [hd1, hd2, List.append_assoc]
        · simp only [serialize_raw_args, hs1, hs2, Bind.bind, Except.bind]

/-- C4 counterexample: the frame payload `[2,0,0,0, 97,0, 255,255]` parses
successfully against the one-string schema (the two `255` padding bytes are
read and discarded), but re-serializing the parsed arguments produces
`[2,0,0,0, 97,0, 0,0]`, which differs from the original payload.  So
parse-then-serialize is not the identity on all successfully parsed
frames. -/
theorem c4_padding_counterexample :
    parse_dyn_args [⟨.string, none, false⟩] ⟨[2, 0, 0, 0, 97, 0, 255, 255], [], 0⟩ =
      .ok ([.string (some [97, 0])], ⟨[], [], 0⟩) ∧
    serialize_raw_args [.string (some [97, 0])] = .ok ([2, 0, 0, 0, 97, 0, 0, 0], []) ∧
    [2, 0, 0, 0, 97, 0, 0, 0] ≠ [2, 0, 0, 0, 97, 0, 255, 255] := by
  refine ⟨by decide, by decide, by decide⟩

/-- C4 (amended): for a frame of well-formed bytes whose payload is fully
consumed by the schema, whose schema contains no dynamic-interface
`new_id` argument, and all of whose padding bytes are zero, serializing
the parsed dynamic arguments reproduces the original payload bytes
exactly; and every padding byte the writer emits is zero. -/
theorem c4_roundtrip_amended {desc : List ArgumentDesc} {r : Reader}
    {args : List DynArgument} {pads : List Nat} {r2 : Reader}
    (hp : parse_dyn_args_pad desc r = .ok ((args, pads), r2))
    (hall : r2.data = [])
    (hb : ∀ b ∈ r.data, b < 256)
    (hanon : ∀ d ∈ desc, d.arg_type = .newId → d.interface.isSome)
    (hz : ∀ b ∈ pads, b = 0) :
    parse_dyn_args desc r = .ok (args, r2) ∧
    (∃ fs, serialize_raw_args args = .ok (r.data, fs)) ∧
    ∀ len, ∀ b ∈ padBytes len, b = 0 := by
  refine ⟨by simp only [parse_dyn_args, hp], ?_, ?_⟩
  · obtain ⟨pre, fs, hd, hs⟩ := serialize_parse_prefix hp hb hanon hz
    rw [hall, List.append_nil] at hd
    exact ⟨fs, hd ▸ hs⟩
  · intro len b hbm
    exact (List.eq_of_mem_replicate (by simpa [padBytes] using hbm))

/-- C4 witness: the amended round-trip theorem applied to the concrete
frame `uint 7` followed by the string `"a\x00"` with zero padding. -/
theorem c4_roundtrip_amended_witness :
    parse_dyn_args [⟨.uint, none, false⟩, ⟨.string, none, false⟩]
        ⟨[7, 0, 0, 0, 2, 0, 0, 0, 97, 0, 0, 0], [], 0⟩ =
      .ok ([.uint 7, .string (some [97, 0])], ⟨[], [], 0⟩) ∧
    (∃ fs, serialize_raw_args [.uint 7, .string (some [97, 0])] =
      .ok ([7, 0, 0, 0, 2, 0, 0, 0, 97, 0, 0, 0], fs)) ∧
    ∀ len, ∀ b ∈ padBytes len, b = 0 :=
  @c4_roundtrip_amended [⟨.uint, none, false⟩, ⟨.string, none, false⟩]
    ⟨[7, 0, 0, 0, 2, 0, 0, 0, 97, 0, 0, 0], [], 0⟩
    [.uint 7, .string (some [97, 0])] [0, 0] ⟨[], [], 0⟩
    (by decide) rfl (by decide) (by decide) (by decide)

/-! ### Helper lemmas about the object-table primitives -/

theorem removeFirstWhere_append {p : Object → Bool} {pre post : List Object} {obj : Object}
    (h : ∀ o ∈ pre, p o = false) (hk : p obj = true) :
    removeFirstWhere p (pre ++ obj :: post) = some (obj, pre ++ post) := by
  induction pre with
  | nil => simp [removeFirstWhere, hk]
  | cons a rest ih =>
    have ha : p a = false := h a (by simp)
    have ihr := ih (fun o ho => h o (by simp [ho]))
    simp [removeFirstWhere, ha, ihr]

theorem removeFirstWhere_none {p : Object → Bool} {l : List Object}
    (h : ∀ o ∈ l, p o = false) : removeFirstWhere p l = none := by
  induction l with
  | nil => rfl
  | cons a rest ih =>
    have ha : p a = false := h a (by simp)
    have ihr := ih (fun o ho => h o (by simp [ho]))
    simp [removeFirstWhere, ha, ihr]

theorem find?_append_first {p : Object → Bool} {pre post : List Object} {obj : Object}
    (h : ∀ o ∈ pre, p o = false) (hk : p obj = true) :
    (pre ++ obj :: post).find? p = some obj := by
  induction pre with
  | nil => simp [List.find?, hk]
  | cons a rest ih =>
    have ha : p a = false := h a (by simp)
    have ihr := ih (fun o ho => h o (by simp [ho]))
    simp [List.find?, ha, ihr]

theorem map_keyUpdate_eq {l : List Object} {k : Nat} {f : Object → Object}
    (h : ∀ o ∈ l, (o.key == k) = false) :
    l.map (fun o => if o.key == k then f o else o) = l := by
  induction l with
  | nil => rfl
  | cons a rest ih =>
    have ha : (a.key == k) = false := h a (by simp)
    have ihr := ih (fun o ho => h o (by simp [ho]))
    have hstep : (if a.key == k then f a else a) = a := by simp [ha]
    simp only [List.map_cons, hstep, ihr]

/-! ### C1: the `wl_display.sync` path -/

/-- C1: evaluating `wl_display.sync(3)` on a fresh client.  The server
creates the callback object at id 3 and sends `wl_callback.done`, but the
event carries the hard-coded value 1 (`callback_data: 1 // TODO!: serial`
in the source) and the serial counter is never consulted; the callback is
never marked destroy-pending, so the sweep removes nothing and
`wl_display.delete_id(3)` is never sent — the object at id 3 is still
live afterwards.  A second `sync(4)` sends `done` with the same value 1,
so the payload is not a freshly minted serial.  This contradicts the
claimed `done(serial)` + `delete_id(3)` output sequence. -/
theorem c1_sync_hardcoded_serial_no_delete_id :
    ((scenarioBase.sync_request 10 0 [.newId 3 none]).destroy_pending).clients.map
        (fun c => c.sent) = [[⟨3, 0, [.uint 1]⟩]] ∧
    ((scenarioBase.sync_request 10 0 [.newId 3 none]).destroy_pending).clients.map
        (fun c => c.objects.map (fun o => (o.id, o.destroy))) = [[(1, false), (3, false)]] ∧
    ((scenarioBase.sync_request 10 0 [.newId 3 none]).destroy_pending).next_serial_counter =
        scenarioBase.next_serial_counter ∧
    (((scenarioBase.sync_request 10 0 [.newId 3 none]).destroy_pending).sync_request
        10 0 [.newId 4 none]).clients.map (fun c => c.sent) =
      [[⟨3, 0, [.uint 1]⟩, ⟨4, 0, [.uint 1]⟩]] := by
  refine ⟨by decide, by decide, by decide, by decide⟩

/-! ### C3: inbound frames with `size < 8` -/

/-- C3: a client whose object table holds `wl_display` at id 1 sends the
8 bytes `[1,0,0,0, 0,0, 4,0]` — a frame header with `sender = 1`,
`opcode = 0`, `size = 4`.  `try_read_message` panics (the source slices
`data[8..]` out of a 4-byte vector), instead of reporting an
invalid-framing error and disconnecting the client; a panic aborts the
whole server process.  For contrast, the well-formed 12-byte sync frame
is read successfully. -/
theorem c3_short_frame_panics :
    NetClient.try_read_message ⟨[1, 0, 0, 0, 0, 0, 4, 0], [], [], [], [], 0, []⟩
        [Object.new 0 1 wlDisplayIface] = .panicked ∧
    NetClient.try_read_message ⟨[1, 0, 0, 0, 0, 0, 12, 0, 3, 0, 0, 0], [], [], [], [], 0, []⟩
        [Object.new 0 1 wlDisplayIface] =
      .msg ⟨⟨1, 0, 12⟩, [3, 0, 0, 0], []⟩ ⟨[], [], [], [], [], 0, []⟩ := by
  refine ⟨by decide, by decide⟩

/-! ### C7: inserting under an id that is already present -/

/-- C7 counterexample: `ObjectMap::add` is a plain push with no duplicate
check.  Adding a second object with id 5 succeeds and leaves the table
with two live records sharing id 5 — there is no `IdInUse` failure and
the table does not stay unchanged. -/
theorem c7_duplicate_id_counterexample :
    ObjectMap.add (ObjectMap.add [] (Object.new 0 5 testIface)) (Object.new 1 5 testIface) =
      [Object.new 0 5 testIface, Object.new 1 5 testIface] ∧
    ((ObjectMap.add (ObjectMap.add [] (Object.new 0 5 testIface)) (Object.new 1 5 testIface)).filter
        (fun o => o.id == 5)).length = 2 := by
  refine ⟨by decide, by decide⟩

/-- C7 (amended): `ObjectMap::add` never fails and appends
unconditionally, so two live records of one client may share an id (and
nothing prevents an id from being reused); lookups by id resolve to the
first-inserted record. -/
theorem c7_add_always_appends :
    (∀ (m : List Object) (o : Object), ObjectMap.add m o = m ++ [o]) ∧
    ObjectMap.findById [Object.new 0 5 testIface, Object.new 1 5 testIface] 5 =
      some (Object.new 0 5 testIface) := by
  refine ⟨fun m o => rfl, by decide⟩

/-! ### C8: the null dispatcher on a freshly created object -/

/-- C8: a freshly created object with a statically known interface does
start with the null dispatcher, but dispatching any request to it fails
with `TypeMismatch` and leaves the server state untouched: `Object::new`
stores a bare `()` in the data box while `downcast_data` looks for an
`Owner<()>`, so the downcast inside the null dispatcher always fails
before the request is decoded, and the log-and-discard `NullImpl`
handler is unreachable.  The dispatch does not complete without error as
claimed. -/
theorem c8_null_dispatcher_type_mismatch :
    ∀ (key id : Nat) (iface : DynInterface) (s : Server) (ck opcode : Nat)
      (args : List DynArgument),
      (Object.new key id iface).dispatcher = some (Dispatcher.null iface) ∧
      Server.dispatch_request s ck key (Dispatcher.null iface) (Object.new key id iface)
          opcode args = (s, some .typeMismatch) := by
  intro key id iface s ck opcode args
  refine ⟨rfl, ?_⟩
  simp [Server.dispatch_request, Dispatcher.null, Object.new, downcastOk, Object.get_data]

/-! ### C10: registering on a dead `NewResource` -/

/-- C10: when the object behind a `NewResource` has already been removed
from every table, `register` installs no dispatcher, stores no data,
raises no error (it is total and returns normally), and hands back a
`Resource` carrying the same client/object handles, whose object handle
still resolves to nothing. -/
theorem c10_register_dead_noop (nr : NewResourceM) (s : Server) (iface : DynInterface)
    (dataTag : Nat) (kind : ImplKind)
    (h : s.lookup_object nr.object = none) :
    nr.register s iface dataTag kind = (s, ⟨nr.client, nr.object⟩) ∧
    s.lookup_object (nr.register s iface dataTag kind).2.object = none := by
  refine ⟨by simp [NewResourceM.register, h], ?_⟩
  simp [NewResourceM.register, h]

/-- C10 witness: registering on handle 99, which no table of the base
scenario contains. -/
theorem c10_register_dead_noop_witness :
    NewResourceM.register ⟨10, 99⟩ scenarioBase testIface unitTag .noopFn =
      (scenarioBase, ⟨10, 99⟩) ∧
    scenarioBase.lookup_object
      (NewResourceM.register ⟨10, 99⟩ scenarioBase testIface unitTag .noopFn).2.object = none := by
  have h := c10_register_dead_noop ⟨10, 99⟩ scenarioBase testIface unitTag .noopFn (by decide)
  exact h

/-! ### C2: `wl_display.delete_id` on destruction -/

/-- C2 counterexample: a properly registered object (id 7) already marked
destroy-pending is removed by the sweep phase (`Server::destroy_pending`),
but no `wl_display.delete_id` is ever handed to the transport (`sent`
stays empty), and the removal happens before the destructor callback runs
(trace `removed` then `destructorRun`), contradicting both the
exactly-one-delete_id claim and the claimed destructor → removal →
delete_id order for sweep-destroyed objects. -/
theorem c2_sweep_no_delete_id_counterexample :
    (sweepScenario.destroy_pending).clients.map (fun c => c.sent) = [[]] ∧
    (sweepScenario.destroy_pending).clients.map (fun c => c.objects.map (fun o => o.id)) =
      [[1]] ∧
    (sweepScenario.destroy_pending).trace = [.removed 1, .destructorRun 1] := by
  refine ⟨by decide, by decide, by decide⟩

/-- Helper: a sweep over a client with no destroy-pending object does
nothing, whatever the fuel. -/
theorem sweep_client_noPending {s : Server} {ck : Nat} {c : Client}
    (hc : s.findClient ck = some c)
    (hnp : ObjectMap.next_pending_destroy c.objects = none) :
    ∀ fuel, s.sweep_client ck fuel = s := by
  intro fuel
  cases fuel with
  | zero => rfl
  | succ n => simp [Server.sweep_client, hc, hnp]

/-- C2 (amended): destruction is split between two code paths with
different observable behaviour.

Direct path (`Server::destroy_object`, taken right after the request that
set the destroy flag): exactly one `wl_display.delete_id(id)` is handed
to the transport, appended after every previously sent message, and the
steps happen in the order destructor callback, removal from the table,
`delete_id` send.

Sweep path (`Server::destroy_pending`): the object is removed from the
table before its destructor callback runs, and no `wl_display.delete_id`
is handed to the transport at all. -/
theorem c2_delete_id_amended :
    (∀ (tr : List TraceEv) (nk ns ckey dpk : Nat) (sent0 : List DynMsg)
       (rgk : Option Nat) (pre post : List Object) (obj dObj : Object) (d : Dispatcher),
      (∀ o ∈ pre, (o.key == obj.key) = false) →
      (∀ o ∈ post, (o.key == obj.key) = false) →
      obj.dispatcher = some d → d.destroyed = false → downcastOk d obj = true →
      (pre ++ post).find? (fun o => o.key == dpk) = some dObj →
      Server.destroy_object ⟨[⟨ckey, pre ++ obj :: post, sent0, dpk, rgk⟩], nk, ns, tr⟩
          ckey obj.key =
        ⟨[⟨ckey, pre ++ post, sent0 ++ [⟨dObj.id, 1, [.uint obj.id]⟩], dpk, rgk⟩], nk, ns,
         tr ++ [.destructorRun obj.key, .removed obj.key,
                .sentMsg ckey ⟨dObj.id, 1, [.uint obj.id]⟩]⟩) ∧
    (∀ (tr : List TraceEv) (nk ns ckey dpk : Nat) (sent0 : List DynMsg)
       (rgk : Option Nat) (pre post : List Object) (obj : Object) (d : Dispatcher),
      (∀ o ∈ pre, o.destroy = false) →
      (∀ o ∈ post, o.destroy = false) →
      obj.destroy = true →
      obj.dispatcher = some d → d.destroyed = false → downcastOk d obj = true →
      Server.destroy_pending ⟨[⟨ckey, pre ++ obj :: post, sent0, dpk, rgk⟩], nk, ns, tr⟩ =
        ⟨[⟨ckey, pre ++ post, sent0, dpk, rgk⟩], nk, ns,
         tr ++ [.removed obj.key, .destructorRun obj.key]⟩) := by
  constructor
  · intro tr nk ns ckey dpk sent0 rgk pre post obj dObj d hpre hpost hdisp hnd hdc hdfind
    have hfo : ObjectMap.findByKey (pre ++ obj :: post) obj.key = some obj :=
      find?_append_first hpre (by simp)
    have hmap : (pre ++ obj :: post).map
        (fun o => if o.key == obj.key
          then { obj with dispatcher := some { d with destroyed := true } } else o) =
        pre ++ { obj with dispatcher := some { d with destroyed := true } } :: post := by
      rw [List.map_append, List.map_cons, map_keyUpdate_eq hpre, map_keyUpdate_eq hpost]
      simp
    have hrm : ObjectMap.removeByKey
        (pre ++ { obj with dispatcher := some { d with destroyed := true } } :: post)
        obj.key = pre ++ post := by
      unfold ObjectMap.removeByKey
      rw [removeFirstWhere_append hpre (by simp)]
    have hfc : ∀ (objs : List Object) (st : List DynMsg) (trc : List TraceEv),
        Server.findClient ⟨[⟨ckey, objs, st, dpk, rgk⟩], nk, ns, trc⟩ ckey =
          some ⟨ckey, objs, st, dpk, rgk⟩ := by
      intro objs st trc
      simp [Server.findClient, List.find?]
    have hdfind2 : ObjectMap.findByKey (pre ++ post) dpk = some dObj := hdfind
    simp only [Server.destroy_object, hfc, hfo, Server.run_object_destructor,
      Server.run_object_destructor_on, hdisp, Dispatcher.dispatch_destructor, hnd,
      Bool.false_eq_true, if_false, hdc, if_true, Server.updateClient, List.map_cons,
      List.map_nil, beq_self_eq_true, Server.remove_object, Server.send_event,
      Server.try_send_event, hdfind2, hmap, hrm]
    simp [List.append_assoc]
  · intro tr nk ns ckey dpk sent0 rgk pre post obj d hpre hpost hdes hdisp hnd hdc
    have hfc : ∀ (objs : List Object) (st : List DynMsg) (trc : List TraceEv),
        Server.findClient ⟨[⟨ckey, objs, st, dpk, rgk⟩], nk, ns, trc⟩ ckey =
          some ⟨ckey, objs, st, dpk, rgk⟩ := by
      intro objs st trc
      simp [Server.findClient, List.find?]
    have hnp : ObjectMap.next_pending_destroy (pre ++ obj :: post) = some (obj, pre ++ post) := by
      unfold ObjectMap.next_pending_destroy
      exact removeFirstWhere_append (by simpa using hpre) (by simpa using hdes)
    have hnp2 : ObjectMap.next_pending_destroy (pre ++ post) = none := by
      unfold ObjectMap.next_pending_destroy
      refine removeFirstWhere_none ?_
      intro o ho
      rcases List.mem_append.mp ho with h | h
      · simpa using hpre o h
      · simpa using hpost o h
    have hlen : (pre ++ obj :: post).length = pre.length + post.length + 1 := by
      simp [List.length_append]
      omega
    unfold Server.destroy_pending
    simp only [List.map_cons, List.map_nil, List.foldl_cons, List.foldl_nil, hfc, hlen]
    rw [show pre.length + post.length + 1 + 1 = (pre.length + post.length + 1) + 1 from rfl]
    unfold Server.sweep_client
    simp only [hfc, hnp, Server.updateClient, List.map_cons, List.map_nil, beq_self_eq_true,
      if_true, Server.run_object_destructor_on, hdisp, Dispatcher.dispatch_destructor, hnd,
      Bool.false_eq_true, if_false, hdc]
    rw [sweep_client_noPending (by exact hfc _ _ _) hnp2]
    simp [List.append_assoc]

/-- C2 witness: the amended theorem applied to the concrete sweep
scenario (direct path on `sweepObj` inside its table, and sweep on the
same state). -/
theorem c2_delete_id_amended_witness :
    Server.destroy_object
        ⟨[⟨10, [Object.mk 0 1 wlDisplayIface
                  (some (Dispatcher.new wlDisplayIface unitTag .wlDisplayImpl))
                  (.plain unitTag) false] ++ sweepObj :: [], [], 0, none⟩], 2, 1, []⟩
        10 sweepObj.key =
      ⟨[⟨10, [Object.mk 0 1 wlDisplayIface
                (some (Dispatcher.new wlDisplayIface unitTag .wlDisplayImpl))
                (.plain unitTag) false] ++ [],
         [] ++ [⟨1, 1, [.uint sweepObj.id]⟩], 0, none⟩], 2, 1,
       [] ++ [.destructorRun sweepObj.key, .removed sweepObj.key,
              .sentMsg 10 ⟨1, 1, [.uint sweepObj.id]⟩]⟩ := by
  exact c2_delete_id_amended.1 [] 2 1 10 0 [] none
    [Object.mk 0 1 wlDisplayIface
      (some (Dispatcher.new wlDisplayIface unitTag .wlDisplayImpl)) (.plain unitTag) false]
    [] sweepObj
    (Object.mk 0 1 wlDisplayIface
      (some (Dispatcher.new wlDisplayIface unitTag .wlDisplayImpl)) (.plain unitTag) false)
    (Dispatcher.new testIface unitTag .noopFn)
    (by decide) (by decide) (by decide) (by decide) (by decide) (by decide)

/-! ### C5: parse and dispatch errors -/

/-- C5 counterexample: the fresh client sends `wl_display.sync` (sender 1,
opcode 0) with an empty payload.  Parsing fails, `handle_client_message`
returns the error with the state untouched, and `Server::run` merely logs
it: the resulting iteration keeps the client connected with its state
unchanged (only the log grew) — the offending client is not
disconnected. -/
theorem c5_parse_error_keeps_client :
    scenarioBase.handle_client_message 10 ⟨⟨1, 0, 12⟩, [], []⟩ =
      .err (ServerError.invalidArguments .ioError) scenarioBase ∧
    scenarioBase.run_iteration 10 ⟨⟨1, 0, 12⟩, [], []⟩ =
      .ok { scenarioBase with trace := [.logError] } := by
  refine ⟨by decide, by decide⟩

/-- C5 (amended): an error returned by `handle_client_message` (unknown
sender, parse failure) leaves the server state exactly as it was and the
run loop logs it and continues — the offending client stays connected and
no client is affected.  A dispatcher error (here the type mismatch hit by
any request to a never-registered object) is likewise logged inside
`handle_client_message`; the iteration succeeds and the only change is
the log entry.  (Unknown opcodes are not handled this way: they panic,
see the C3 analysis of the unvalidated indexations.) -/
theorem c5_errors_logged_not_disconnecting :
    (∀ (s : Server) (ck : Nat) (raw : RawMessage) (e : ServerError) (s2 : Server),
      Server.handle_client_message s ck raw = .err e s2 →
      s2 = s ∧ Server.run_iteration s ck raw = .ok { s with trace := s.trace ++ [.logError] }) ∧
    freshObjScenario.run_iteration 10 ⟨⟨5, 0, 8⟩, [], []⟩ =
      .ok { freshObjScenario with trace := [.logError] } := by
  constructor
  · intro s ck raw e s2 h
    have hpd : ∀ (s1 : Server) (k : Nat), ∃ s3, s1.post_dispatch ck k = .ok s3 := by
      intro s1 k
      unfold Server.post_dispatch
      split
      · split <;> exact ⟨_, rfl⟩
      · exact ⟨_, rfl⟩
    have hs : s2 = s := by
      unfold Server.handle_client_message at h
      split at h
      · exact absurd h (by simp)
      · split at h
        · injection h with h1 h2
          exact h2.symm
        · split at h
          · exact absurd h (by simp)
          · split at h
            · injection h with h1 h2
              exact h2.symm
            · split at h <;>
                (obtain ⟨s3, hs3⟩ := hpd _ _
                 rw [hs3] at h
                 exact absurd h (by simp))
    refine ⟨hs, ?_⟩
    unfold Server.run_iteration
    rw [h, hs]
  · decide

/-- C5 witness: the amended theorem applied to the short-payload sync
frame on the base scenario. -/
theorem c5_errors_logged_witness :
    scenarioBase = scenarioBase ∧
    scenarioBase.run_iteration 10 ⟨⟨1, 0, 12⟩, [], []⟩ =
      .ok { scenarioBase with trace := scenarioBase.trace ++ [.logError] } :=
  c5_errors_logged_not_disconnecting.1 scenarioBase 10 ⟨⟨1, 0, 12⟩, [], []⟩
    (ServerError.invalidArguments .ioError) scenarioBase (by decide)

/-! ### C6: the destructor runs exactly once -/

/-- C6: the dispatcher records the destroyed flag after the first
destructor dispatch; every subsequent destructor dispatch returns the
already-destroyed error (`DispatchError::ObjectDestroyed`), and every
subsequent request dispatch on the same dispatcher fails with it too.
And calling `destroy()` twice from within one handler still results in
exactly one destructor run: in the scenario the handler of object 7
(key 1) calls `destroy()` twice, and the iteration records exactly one
`destructorRun`, followed by removal and one `delete_id(7)`. -/
theorem c6_destructor_exactly_once :
    (∀ (d : Dispatcher) (o o2 : Object), d.destroyed = false →
      ((d.dispatch_destructor o).2.destroyed = true ∧
       ((d.dispatch_destructor o).2.dispatch_destructor o2).1 =
         .error .objectDestroyed ∧
       ∀ (s : Server) (ck objKey opcode : Nat) (args : List DynArgument),
         Server.dispatch_request s ck objKey (d.dispatch_destructor o).2 o2 opcode args =
           (s, some .objectDestroyed))) ∧
    (destroyTwiceScenario.run_iteration 10 ⟨⟨7, 0, 8⟩, [], []⟩).traceOf =
      [.destructorRun 1, .removed 1, .sentMsg 10 ⟨1, 1, [.uint 7]⟩] ∧
    (destroyTwiceScenario.run_iteration 10 ⟨⟨7, 0, 8⟩, [], []⟩).sentOf =
      [[⟨1, 1, [.uint 7]⟩]] ∧
    (destroyTwiceScenario.run_iteration 10 ⟨⟨7, 0, 8⟩, [], []⟩).objectIdsOf = [[1]] := by
  refine ⟨?_, by decide, by decide, by decide⟩
  intro d o o2 hnd
  have hdes : (d.dispatch_destructor o).2.destroyed = true := by
    unfold Dispatcher.dispatch_destructor
    rw [hnd]
    by_cases hdc : downcastOk d o <;> simp [hdc]
  refine ⟨hdes, ?_, ?_⟩
  · generalize hg : (d.dispatch_destructor o).2 = d2 at hdes
    simp [Dispatcher.dispatch_destructor, hdes]
  · intro s ck objKey opcode args
    generalize hg : (d.dispatch_destructor o).2 = d2 at hdes
    simp [Server.dispatch_request, hdes]

/-- C6 witness: the flag part applied to a fresh no-op dispatcher. -/
theorem c6_destructor_exactly_once_witness :
    ((Dispatcher.new testIface unitTag .noopFn).dispatch_destructor sweepObj).2.destroyed =
      true ∧
    (((Dispatcher.new testIface unitTag .noopFn).dispatch_destructor sweepObj).2.dispatch_destructor
        sweepObj).1 = .error .objectDestroyed ∧
    ∀ (s : Server) (ck objKey opcode : Nat) (args : List DynArgument),
      Server.dispatch_request s ck objKey
          ((Dispatcher.new testIface unitTag .noopFn).dispatch_destructor sweepObj).2 sweepObj
          opcode args =
        (s, some .objectDestroyed) :=
  c6_destructor_exactly_once.1 (Dispatcher.new testIface unitTag .noopFn) sweepObj sweepObj
    (by decide)

/-! ### C9: the flush phase and partially drained clients -/

/-- Helper: once the accumulated flag is false, `flush_clients` touches no
further client. -/
theorem flushClientsFrom_false (cs : List NetClient) :
    flushClientsFrom cs false = .ok (false, cs) := by
  induction cs with
  | nil => rfl
  | cons a rest ih => simp [flushClientsFrom, ih]

/-- C9 counterexample: client `c9a` cannot drain fully (its socket accepts
one byte per call), and client `c9b` that comes after it is skipped: its
buffer still holds its byte after the flush phase, even though flushing
it directly would drain it completely.  So the flush phase does not
attempt every client after a partial drain. -/
theorem c9_flush_skips_counterexample :
    ClientManager.flush_clients [c9a, c9b] =
      .ok (false, [⟨[], [], [], [3, 4, 5], [], 1, [1, 2]⟩, c9b]) ∧
    c9b.flush = .ok (true, ⟨[], [], [], [], [], 100, [9]⟩) ∧
    c9b.out_data ≠ [] := by
  refine ⟨by decide, by decide, by decide⟩

/-- C9 (amended): the flush phase walks the clients in order and attempts
to drain each one only while every previous client drained fully; from
the first client whose buffer could not be fully drained onwards, the
remaining clients are returned untouched (their `flush` is never
called). -/
theorem c9_flush_skips_after_partial :
    ∀ (cs1 : List NetClient) (c c2 : NetClient) (cs2 : List NetClient),
      (∀ x ∈ cs1, ∃ y, x.flush = .ok (true, y)) →
      c.flush = .ok (false, c2) →
      ∃ cs1b, ClientManager.flush_clients (cs1 ++ c :: cs2) =
          .ok (false, cs1b ++ c2 :: cs2) ∧
        cs1b.length = cs1.length := by
  intro cs1
  induction cs1 with
  | nil =>
    intro c c2 cs2 h1 h2
    refine ⟨[], ?_, rfl⟩
    simp [ClientManager.flush_clients, flushClientsFrom, h2, flushClientsFrom_false]
  | cons a rest ih =>
    intro c c2 cs2 h1 h2
    obtain ⟨y, hy⟩ := h1 a (by simp)
    obtain ⟨cs1b, hflush, hlen⟩ := ih c c2 cs2 (fun x hx => h1 x (by simp [hx])) h2
    refine ⟨y :: cs1b, ?_, by simp [hlen]⟩
    have hrest : flushClientsFrom (rest ++ c :: cs2) true = .ok (false, cs1b ++ c2 :: cs2) :=
      hflush
    simp [ClientManager.flush_clients, flushClientsFrom, hy, hrest]

/-- C9 witness: the amended theorem applied to the two concrete clients
(no fully-draining clients in front, `c9a` partially drains, `c9b`
behind it). -/
theorem c9_flush_skips_after_partial_witness :
    ∃ cs1b, ClientManager.flush_clients ([] ++ c9a :: [c9b]) =
        .ok (false, cs1b ++ (⟨[], [], [], [3, 4, 5], [], 1, [1, 2]⟩ : NetClient) :: [c9b]) ∧
      cs1b.length = ([] : List NetClient).length :=
  c9_flush_skips_after_partial [] c9a ⟨[], [], [], [3, 4, 5], [], 1, [1, 2]⟩ [c9b]
    (fun x hx => absurd hx (by simp)) (by decide)

end Wl
